import Mathlib

/-!
Shallow embedding of the session/request-authentication and integrity core of
the AI_Detector repository (src/middleware/session.js, src/middleware/csrf.js,
the request-signing middleware, src/config/env.js and the logout route of
src/routes/api.js), together with proofs settling the frozen claims about it.

Conventions of the embedding:
* JS strings are Lean String (char-for-char; all inputs of interest are ASCII,
  where UTF-16 code-unit indices and Lean char indices coincide).
* Machine integers (Date.now() values, expiry windows) are Int; the values in
  play are far below 2^53 so JS number arithmetic on them is exact.
* A JS value that may be undefined/null is an Option.  Code that can throw is
  modelled with Option results at the throwing primitive (timingSafeEqual) and
  the surrounding try/catch becomes the none branch.
* crypto.createHmac(sha256, secret).update(msg).digest(hex) is an external
  cryptographic primitive, not code of this repository; it is modelled as an
  uninterpreted parameter hmac : String -> String -> String (secret, message to
  hex digest).  decodeURIComponent is likewise passed as a parameter dec.
* crypto.randomBytes(n) is modelled by passing the drawn bytes (List Nat) in.
-/

namespace Humanizer

/-- JS String.prototype.split on a single-character separator:
splitOnChar c l is the list of segments of l between occurrences of c. -/
def splitOnChar (c : Char) : List Char → List (List Char)
  | [] => [[]]
  | x :: xs =>
    let r := splitOnChar c xs
    if x = c then [] :: r
    else
      match r with
      | [] => [[x]]
      | h :: t => (x :: h) :: t

/-- JS String.prototype.indexOf for a single character: position of the first
occurrence, none when absent (JS returns -1). -/
def charIndex (c : Char) : List Char → Option Nat
  | [] => none
  | x :: xs => if x = c then some 0 else (charIndex c xs).map (· + 1)

/-- Whitespace for JS String.prototype.trim (ASCII portion; the inputs in play
contain no exotic Unicode whitespace). -/
def isJsWs (c : Char) : Bool :=
  c = ' ' || c = '\t' || c = '\n' || c = '\r'

/-- JS String.prototype.trim on the char list. -/
def trimChars (l : List Char) : List Char :=
  ((l.dropWhile isJsWs).reverse.dropWhile isJsWs).reverse

/-- Value of a decimal digit character, none for non-digits. -/
def decDigitVal (c : Char) : Option Nat :=
  if 48 ≤ c.toNat ∧ c.toNat ≤ 57 then some (c.toNat - 48) else none

/-- Longest leading run of decimal digits, as a number; none when there is no
leading digit (JS parseInt then yields NaN). -/
def parseDigits (cs : List Char) : Option Nat :=
  let ds := cs.takeWhile (fun c => (decDigitVal c).isSome)
  if ds.isEmpty then none
  else some (ds.foldl (fun a c => 10 * a + (decDigitVal c).getD 0) 0)

/-- JS parseInt(s, 10): skip leading whitespace, optional sign, longest digit
prefix; trailing garbage is ignored; none models NaN. -/
def jsParseInt (s : String) : Option Int :=
  match s.data.dropWhile isJsWs with
  | [] => none
  | c :: cs =>
    if c = '-' then (parseDigits cs).map (fun n => -(n : Int))
    else if c = '+' then (parseDigits cs).map (fun n => (n : Int))
    else (parseDigits (c :: cs)).map (fun n => (n : Int))

/-- Decimal digit character. -/
def digitChar (d : Nat) : Char :=
  match d with
  | 0 => '0' | 1 => '1' | 2 => '2' | 3 => '3' | 4 => '4'
  | 5 => '5' | 6 => '6' | 7 => '7' | 8 => '8' | _ => '9'

/-- Decimal rendering of a Nat, most significant digit first, driven by fuel
(structural recursion; fuel n + 1 always suffices). -/
def natToDecimalAux (n : Nat) : Nat → List Char
  | 0 => []
  | fuel + 1 =>
    if n < 10 then [digitChar n]
    else natToDecimalAux (n / 10) fuel ++ [digitChar (n % 10)]

/-- Decimal rendering of a Nat (the JS template-literal conversion of a
nonnegative integer). -/
def natToDecimal (n : Nat) : String :=
  String.mk (natToDecimalAux n (n + 1))

/-- JS template-literal conversion of an integer number to its decimal string
(negative values print with a leading minus sign). -/
def intToDecimal (t : Int) : String :=
  if t < 0 then "-" ++ natToDecimal t.natAbs else natToDecimal t.toNat

/-- Value of a hexadecimal digit character (case-insensitive), none otherwise. -/
def hexVal (c : Char) : Option Nat :=
  if 48 ≤ c.toNat ∧ c.toNat ≤ 57 then some (c.toNat - 48)
  else if 97 ≤ c.toNat ∧ c.toNat ≤ 102 then some (c.toNat - 87)
  else if 65 ≤ c.toNat ∧ c.toNat ≤ 70 then some (c.toNat - 55)
  else none

/-- Node Buffer.from(s, hex): decode complete pairs of hex digits, stopping at
the first invalid character; a trailing odd character is dropped.  Never
throws. -/
def hexDecodeList : List Char → List Nat
  | c1 :: c2 :: rest =>
    match hexVal c1, hexVal c2 with
    | some hi, some lo => (16 * hi + lo) :: hexDecodeList rest
    | _, _ => []
  | _ => []

/-- Node Buffer.from(s, hex) on a String. -/
def hexDecode (s : String) : List Nat :=
  hexDecodeList s.data

/-- Lowercase hex digit character. -/
def hexDigitChar (d : Nat) : Char :=
  match d with
  | 0 => '0' | 1 => '1' | 2 => '2' | 3 => '3' | 4 => '4'
  | 5 => '5' | 6 => '6' | 7 => '7' | 8 => '8' | 9 => '9'
  | 10 => 'a' | 11 => 'b' | 12 => 'c' | 13 => 'd' | 14 => 'e' | _ => 'f'

/-- The two lowercase hex characters of one byte. -/
def byteToHexChars (n : Nat) : List Char :=
  [hexDigitChar (n / 16 % 16), hexDigitChar (n % 16)]

/-- Node Buffer.prototype.toString(hex). -/
def bytesToHex (bs : List Nat) : String :=
  String.mk ((bs.map byteToHexChars).flatten)

/-- UTF-8 encoding of one char (Node Buffer.from(string) byte semantics). -/
def utf8EncodeChar (c : Char) : List Nat :=
  let n := c.toNat
  if n < 128 then [n]
  else if n < 2048 then [192 + n / 64, 128 + n % 64]
  else if n < 65536 then [224 + n / 4096, 128 + n / 64 % 64, 128 + n % 64]
  else [240 + n / 262144, 128 + n / 4096 % 64, 128 + n / 64 % 64, 128 + n % 64]

/-- Byte sequence of Node Buffer.from(s) (UTF-8). -/
def utf8Bytes (s : String) : List Nat :=
  (s.data.map utf8EncodeChar).flatten

/-- crypto.timingSafeEqual: throws (none) when the buffers have different
lengths, otherwise reports byte-sequence equality. -/
def timingSafeEqual (a b : List Nat) : Option Bool :=
  if a.length = b.length then some (decide (a = b)) else none

/-! ## src/middleware/session.js -/

/-- PUBLIC_PATHS of src/middleware/session.js line 9. -/
def PUBLIC_PATHS : List String :=
  ["/api/login", "/api/logout", "/api/health", "/login"]

/-- One iteration of the parseCookies forEach loop: split the pair at the
first equals sign (idx < 0 means the pair is skipped), trim key and value,
URL-decode the value. -/
def parsePair (dec : String → String) (pair : List Char) : Option (String × String) :=
  match charIndex '=' pair with
  | none => none
  | some idx =>
    some (String.mk (trimChars (pair.take idx)),
          dec (String.mk (trimChars (pair.drop (idx + 1)))))

/-- parseCookies of src/middleware/session.js lines 16-27: split the Cookie
header on semicolons and accumulate key/value pairs into an object.  The
object is modelled as the assoc list of assignments in loop order. -/
def parseCookies (dec : String → String) (header : Option String) : List (String × String) :=
  match header with
  | none => []
  | some h => if h = "" then [] else (splitOnChar ';' h.data).filterMap (parsePair dec)

/-- Property lookup on the object built by parseCookies: the last assignment
to a key wins. -/
def cookiesGet (cookies : List (String × String)) (name : String) : Option String :=
  ((cookies.filter (fun p => p.1 == name)).getLast?).map (fun p => p.2)

/-- createSession of src/middleware/session.js lines 33-40, with the call to
Date.now() passed in as now and the HMAC primitive as hmac. -/
def createSession (hmac : String → String → String) (secret : String) (now : Int) : String :=
  intToDecimal now ++ "." ++ hmac secret ("session:" ++ intToDecimal now)

/-- isValidSession of src/middleware/session.js lines 47-70.  The token
argument is Option String: none models a missing (undefined) cookie; the
typeof-string guard restricts the JS function to this domain.  The function is
total: the try/catch around timingSafeEqual is the none branch. -/
def isValidSession (hmac : String → String → String) (secret : String)
    (sessionExpiryMs now : Int) (token : Option String) : Bool :=
  match token with
  | none => false
  | some tok =>
    if tok = "" then false
    else
      match charIndex '.' tok.data with
      | none => false
      | some dot =>
        let sig := String.mk (tok.data.drop (dot + 1))
        match jsParseInt (String.mk (tok.data.take dot)) with
        | none => false
        | some ts =>
          if now - ts > sessionExpiryMs then false
          else
            match timingSafeEqual (hexDecode sig)
                (hexDecode (hmac secret ("session:" ++ intToDecimal ts))) with
            | none => false
            | some b => b

/-- safeCompare of src/middleware/session.js lines 92-100: String() coercion
then byte comparison of the UTF-8 buffers; on a length mismatch a dummy
self-comparison runs (for timing) and false is returned. -/
def safeCompare (a b : String) : Bool :=
  let bufA := utf8Bytes a
  let bufB := utf8Bytes b
  if bufA.length ≠ bufB.length then false
  else
    match timingSafeEqual bufA bufB with
    | none => false
    | some r => r

/-- The static-asset extension alternatives of the regex in requireAuth. -/
def staticAssetExts : List String :=
  ["css", "js", "png", "jpg", "jpeg", "gif", "svg", "ico", "woff", "woff2", "ttf", "eot", "map"]

/-- The test of the anchored regex in requireAuth: the path ends in a dot plus
one of the listed extensions. -/
def isStaticAsset (path : String) : Bool :=
  staticAssetExts.any (fun e => (("." ++ e).data).isSuffixOf path.data)

/-- Outcome of the requireAuth middleware: call next, answer 401 JSON, or
redirect to /login. -/
inductive AuthDecision where
  | next
  | unauthorized
  | redirectLogin
deriving DecidableEq

/-- requireAuth of src/middleware/session.js lines 105-121. -/
def requireAuth (hmac : String → String → String) (secret : String)
    (sessionExpiryMs now : Int) (dec : String → String)
    (path : String) (cookieHeader : Option String) : AuthDecision :=
  if PUBLIC_PATHS.contains path then .next
  else if isStaticAsset path then .next
  else if isValidSession hmac secret sessionExpiryMs now
      (cookiesGet (parseCookies dec cookieHeader) ("session")) then .next
  else if ("/api/").data.isPrefixOf path.data then .unauthorized
  else .redirectLogin

/-! ## The logout route of src/routes/api.js -/

/-- Observable response of the POST /api/logout handler. -/
structure LogoutResponse where
  status : Nat
  clearsSessionCookie : Bool
  clearsUserNameCookie : Bool

/-- router.post(/logout) of src/routes/api.js lines 116-121: unconditionally
clears the session and user_name cookies and answers 200 JSON. -/
def logoutHandler : LogoutResponse :=
  { status := 200, clearsSessionCookie := true, clearsUserNameCookie := true }

/-! ## The request-signing middleware (generateToken / verifyToken) -/

/-- Return shape of generateToken. -/
structure TokenData where
  token : String
  timestamp : Int
  expiresIn : Int

/-- generateToken: timestamp = Date.now(); token = HMAC over the decimal
timestamp, hex digest. -/
def generateToken (hmac : String → String → String) (secret : String)
    (tokenExpiryMs now : Int) : TokenData :=
  { token := hmac secret (intToDecimal now), timestamp := now, expiresIn := tokenExpiryMs }

/-- verifyToken: fails closed on missing/falsy token or timestamp, rejects
age > tokenExpiryMs and age < 0, then compares hex-decoded buffers with
timingSafeEqual under try/catch.  none models undefined/NaN; the JS falsy
checks make an empty token and a zero timestamp fail as well. -/
def verifyToken (hmac : String → String → String) (secret : String)
    (tokenExpiryMs now : Int) (token : Option String) (timestamp : Option Int) : Bool :=
  match token, timestamp with
  | some tok, some ts =>
    if tok = "" || ts == 0 then false
    else if now - ts > tokenExpiryMs || now - ts < 0 then false
    else
      match timingSafeEqual (hexDecode tok) (hexDecode (hmac secret (intToDecimal ts))) with
      | none => false
      | some b => b
  | _, _ => false

/-! ## src/middleware/csrf.js -/

/-- SAFE_METHODS of src/middleware/csrf.js. -/
def SAFE_METHODS : List String :=
  ["GET", "HEAD", "OPTIONS"]

/-- getCookieValue of src/middleware/csrf.js lines 16-20: find the FIRST
semicolon segment whose trimmed text starts with name=, then take the text
between the first and second equals sign of that segment (split('=')[1]),
trim it and URL-decode it. -/
def getCookieValue (dec : String → String) (header : Option String) (name : String) : Option String :=
  match header with
  | none => none
  | some h =>
    if h = "" then none
    else
      match (splitOnChar ';' h.data).find?
          (fun c => (name.data ++ ['=']).isPrefixOf (trimChars c)) with
      | none => none
      | some m => some (dec (String.mk (trimChars ((splitOnChar '=' m).getD 1 []))))

/-- A request as seen by the CSRF middleware. -/
structure CsrfRequest where
  method : String
  path : String
  cookieHeader : Option String
  csrfHeader : Option String

/-- Outcome of the CSRF middleware: call next or send a status and JSON error
body with the given message. -/
inductive CsrfDecision where
  | next
  | reject (status : Nat) (message : String)
deriving DecidableEq

/-- Result of one run of the CSRF middleware: the decision plus the _csrf
cookie value attached to the response, when one was set. -/
structure CsrfResult where
  decision : CsrfDecision
  setCookie : Option String

/-- The value stored on req._csrfCookie: the existing _csrf cookie when the
header carries a truthy one, otherwise the freshly minted token. -/
def effectiveCsrfValue (dec : String → String) (fresh : String)
    (cookieHeader : Option String) : String :=
  match getCookieValue dec cookieHeader ("_csrf") with
  | none => fresh
  | some v => if v = "" then fresh else v

/-- The res.cookie(_csrf, ...) call: performed exactly when no truthy _csrf
cookie came in. -/
def csrfSetCookie (dec : String → String) (fresh : String)
    (cookieHeader : Option String) : Option String :=
  match getCookieValue dec cookieHeader ("_csrf") with
  | none => some fresh
  | some v => if v = "" then some fresh else none

/-- csrfProtection of src/middleware/csrf.js lines 28-57, with the random hex
token drawn for this request passed in as fresh.  The x-csrf-token header is
Option String (none = absent); the JS falsy check also rejects an empty
header value. -/
def csrfProtection (dec : String → String) (fresh : String) (ignorePaths : List String)
    (req : CsrfRequest) : CsrfResult :=
  let setC := csrfSetCookie dec fresh req.cookieHeader
  let cookieVal := effectiveCsrfValue dec fresh req.cookieHeader
  if SAFE_METHODS.contains req.method || ignorePaths.contains req.path then
    { decision := .next, setCookie := setC }
  else
    match req.csrfHeader with
    | none => { decision := .reject 403 ("Invalid or missing CSRF token."), setCookie := setC }
    | some hv =>
      if hv = "" then { decision := .reject 403 ("Invalid or missing CSRF token."), setCookie := setC }
      else if hv = cookieVal then { decision := .next, setCookie := setC }
      else { decision := .reject 403 ("Invalid or missing CSRF token."), setCookie := setC }

/-! ## src/config/env.js — signing-secret resolution -/

/-- The environment and filesystem state the secret resolution reads, plus the
randomness it may draw: envSecret is process.env.SIGNING_SECRET (none =
unset), fileContent is the .signing-secret file content (none = readFileSync
throws, e.g. the file is missing), randomBytes32 are the 32 bytes drawn by
crypto.randomBytes, and writeOk tells whether writeFileSync succeeds. -/
structure SecretSources where
  envSecret : Option String
  fileContent : Option String
  randomBytes32 : List Nat
  writeOk : Bool

/-- getOrCreateSigningSecret of src/config/env.js lines 47-62: return the
trimmed file content when the read succeeds; otherwise generate 32 random
bytes, hex-encode them, attempt to persist (mode 0o600, outcome writeOk —
only a warning differs) and return the generated value either way. -/
def getOrCreateSigningSecret (s : SecretSources) : String :=
  match s.fileContent with
  | some content => String.mk (trimChars content.data)
  | none => bytesToHex s.randomBytes32

/-- config.signingSecret of src/config/env.js line 96:
process.env.SIGNING_SECRET || getOrCreateSigningSecret() — the env value wins
when truthy (set and non-empty). -/
def signingSecret (s : SecretSources) : String :=
  match s.envSecret with
  | none => getOrCreateSigningSecret s
  | some e => if e = "" then getOrCreateSigningSecret s else e

/-! ## Spec-modelled definitions (for refinement comparisons) -/

/-- Modelled from the spec: the cookie-value contract of the External
Interfaces section — split the Cookie header on semicolons, split each pair at
the FIRST equals sign (the value is the whole remainder), ignore pairs with no
equals sign, trim whitespace, URL-decode the value, and let the LAST
occurrence of a duplicate name win (realized here as: search the segments in
reverse order and return the first hit). -/
def specCookieValue (dec : String → String) (header : Option String) (name : String) :
    Option String :=
  match header with
  | none => none
  | some h =>
    (splitOnChar ';' h.data).reverse.findSome? (fun pair =>
      match charIndex '=' pair with
      | none => none
      | some i =>
        if String.mk (trimChars (pair.take i)) = name
        then some (dec (String.mk (trimChars (pair.drop (i + 1)))))
        else none)

/-- Modelled from the spec: the persisted-file step of SecretProvider — the
file's content counts only when the file is present AND non-empty, and is then
returned trimmed of surrounding whitespace. -/
def specFileSecret (s : SecretSources) : Option String :=
  match s.fileContent with
  | none => none
  | some content => if content = "" then none else some (String.mk (trimChars content.data))

/-- Modelled from the spec: full SecretProvider resolution order — external
secret when present, else the persisted file when present and non-empty, else
a fresh random 32-byte value (returned regardless of persistence success). -/
def specResolveSecret (s : SecretSources) : String :=
  match s.envSecret with
  | some e =>
    if e = "" then
      match specFileSecret s with
      | some v => v
      | none => bytesToHex s.randomBytes32
    else e
  | none =>
    match specFileSecret s with
    | some v => v
    | none => bytesToHex s.randomBytes32

/-! ## Concrete fixtures used by witnesses and counterexamples -/

/-- A stand-in for the HMAC primitive in concrete evaluations: a constant
digest (a valid lowercase hex string, as digest(hex) always returns). -/
def hmacTest : String → String → String := fun _ _ => "ab"

/-- decodeURIComponent restricted to inputs with no percent escapes, where it
is the identity: the concrete headers evaluated below contain none. -/
def decId : String → String := fun s => s

/-- A 64-character lowercase hex digest, the shape HMAC-SHA256 digest(hex)
output always has; used as the constant output of hmacC3. -/
def hexC3 : String :=
  "00112233445566778899aabbccddeeff00112233445566778899aabbccddeeff"

/-- HMAC stand-in returning hexC3 for every message. -/
def hmacC3 : String → String → String := fun _ _ => hexC3

/-- The uppercase form of hexC3: a DIFFERENT string with the SAME hex
decoding. -/
def tokenC3 : String :=
  "00112233445566778899AABBCCDDEEFF00112233445566778899AABBCCDDEEFF"

/-! ## Helper lemmas: lists, digits, decimal round trip -/

theorem data_append (a b : String) : (a ++ b).data = a.data ++ b.data := rfl

theorem take_append_cons {α : Type} (a : List α) (c : α) (b : List α) :
    (a ++ c :: b).take a.length = a := by
  induction a with
  | nil => rfl
  | cons x xs ih => simp [ih]

theorem drop_append_cons {α : Type} (a : List α) (c : α) (b : List α) :
    (a ++ c :: b).drop (a.length + 1) = b := by
  induction a with
  | nil => rfl
  | cons x xs ih => simp [ih]

theorem charIndex_append_cons (a : List Char) (c : Char) (b : List Char) (h : c ∉ a) :
    charIndex c (a ++ c :: b) = some a.length := by
  induction a with
  | nil => simp [charIndex]
  | cons x xs ih =>
    have hx : ¬(x = c) := by
      rintro rfl
      exact h (List.mem_cons_self _ _)
    have hxs : c ∉ xs := fun hm => h (List.mem_cons_of_mem _ hm)
    simp [charIndex, hx, ih hxs]

theorem takeWhile_eq_self_of_all {α : Type} (p : α → Bool) (l : List α)
    (h : ∀ c ∈ l, p c) : l.takeWhile p = l := by
  induction l with
  | nil => rfl
  | cons x xs ih =>
    simp only [List.takeWhile_cons, h x (List.mem_cons_self x xs), if_true]
    rw [ih (fun c hc => h c (List.mem_cons_of_mem _ hc))]

theorem decDigitVal_digitChar (d : Nat) (h : d < 10) :
    decDigitVal (digitChar d) = some d := by
  interval_cases d <;> rfl

theorem decDigitVal_isSome_props (c : Char) (h : (decDigitVal c).isSome) :
    isJsWs c = false ∧ c ≠ '-' ∧ c ≠ '+' ∧ c ≠ '.' := by
  unfold decDigitVal at h
  split at h
  · rename_i hrange
    refine ⟨?_, ?_, ?_, ?_⟩
    · have h1 : ¬(c = ' ') := by rintro rfl; revert hrange; decide
      have h2 : ¬(c = '\t') := by rintro rfl; revert hrange; decide
      have h3 : ¬(c = '\n') := by rintro rfl; revert hrange; decide
      have h4 : ¬(c = '\r') := by rintro rfl; revert hrange; decide
      simp [isJsWs, h1, h2, h3, h4]
    · rintro rfl; revert hrange; decide
    · rintro rfl; revert hrange; decide
    · rintro rfl; revert hrange; decide
  · simp at h

theorem natToDecimalAux_spec (fuel : Nat) : ∀ n : Nat, n < 10 ^ fuel →
    (∀ c ∈ natToDecimalAux n fuel, (decDigitVal c).isSome) ∧
    (0 < fuel → natToDecimalAux n fuel ≠ []) ∧
    (∀ a : Nat, (natToDecimalAux n fuel).foldl (fun x c => 10 * x + (decDigitVal c).getD 0) a
      = a * 10 ^ (natToDecimalAux n fuel).length + n) := by
  induction fuel with
  | zero =>
    intro n hn
    have hn0 : n = 0 := by simpa using hn
    subst hn0
    refine ⟨by simp [natToDecimalAux], by omega, fun a => by simp [natToDecimalAux]⟩
  | succ fuel ih =>
    intro n hn
    by_cases h10 : n < 10
    · have hl : natToDecimalAux n (fuel + 1) = [digitChar n] := by
        simp [natToDecimalAux, h10]
      refine ⟨?_, ?_, ?_⟩
      · intro c hc
        rw [hl] at hc
        simp at hc
        subst hc
        simp [decDigitVal_digitChar n h10]
      · intro _
        rw [hl]
        simp
      · intro a
        rw [hl]
        simp [List.foldl, decDigitVal_digitChar n h10]
        ring
    · have hdiv : n / 10 < 10 ^ fuel := by
        rw [Nat.div_lt_iff_lt_mul (by norm_num)]
        rw [pow_succ] at hn
        exact hn
      obtain ⟨ihmem, _, ihfold⟩ := ih (n / 10) hdiv
      have hl : natToDecimalAux n (fuel + 1)
          = natToDecimalAux (n / 10) fuel ++ [digitChar (n % 10)] := by
        simp [natToDecimalAux, h10]
      have hmod : n % 10 < 10 := Nat.mod_lt n (by norm_num)
      refine ⟨?_, ?_, ?_⟩
      · intro c hc
        rw [hl] at hc
        rcases List.mem_append.mp hc with hc | hc
        · exact ihmem c hc
        · simp at hc
          subst hc
          simp [decDigitVal_digitChar _ hmod]
      · intro _
        rw [hl]
        simp
      · intro a
        rw [hl, List.foldl_append, List.length_append]
        simp only [List.foldl, List.length_cons, List.length_nil]
        rw [ihfold a, decDigitVal_digitChar _ hmod]
        have hdm : 10 * (n / 10) + n % 10 = n := Nat.div_add_mod n 10
        calc 10 * (a * 10 ^ (natToDecimalAux (n / 10) fuel).length + n / 10)
              + (some (n % 10)).getD 0
            = a * 10 ^ ((natToDecimalAux (n / 10) fuel).length + (0 + 1))
              + (10 * (n / 10) + n % 10) := by
              simp [Option.getD]
              ring
          _ = a * 10 ^ ((natToDecimalAux (n / 10) fuel).length + (0 + 1)) + n := by
              rw [hdm]

theorem natToDecimal_props (n : Nat) :
    (∀ c ∈ (natToDecimal n).data, (decDigitVal c).isSome) ∧
    (natToDecimal n).data ≠ [] ∧
    parseDigits (natToDecimal n).data = some n := by
  have hlt : n < 10 ^ (n + 1) :=
    lt_of_lt_of_le (Nat.lt_pow_self (by norm_num) n)
      (Nat.pow_le_pow_right (by norm_num) (Nat.le_succ n))
  obtain ⟨hmem, hne, hfold⟩ := natToDecimalAux_spec (n + 1) n hlt
  have hdata : (natToDecimal n).data = natToDecimalAux n (n + 1) := rfl
  rw [hdata]
  refine ⟨hmem, hne (by omega), ?_⟩
  unfold parseDigits
  rw [takeWhile_eq_self_of_all _ _ hmem]
  have hnonnil : (natToDecimalAux n (n + 1)).isEmpty = false := by
    cases hc : natToDecimalAux n (n + 1) with
    | nil => exact absurd hc (hne (by omega))
    | cons x xs => rfl
  simp only [hnonnil, Bool.false_eq_true, if_false, hfold 0]
  simp

theorem jsParseInt_natToDecimal (n : Nat) : jsParseInt (natToDecimal n) = some (n : Int) := by
  obtain ⟨hmem, hne, hparse⟩ := natToDecimal_props n
  rcases hl : (natToDecimal n).data with _ | ⟨c, cs⟩
  · exact absurd hl hne
  · have hc : (decDigitVal c).isSome := by
      apply hmem
      rw [hl]
      exact List.mem_cons_self _ _
    obtain ⟨hws, hminus, hplus, _⟩ := decDigitVal_isSome_props c hc
    rw [hl] at hparse
    unfold jsParseInt
    rw [hl]
    simp only [List.dropWhile_cons, hws, Bool.false_eq_true, if_false]
    simp [hminus, hplus, hparse]

theorem jsParseInt_intToDecimal (t : Int) : jsParseInt (intToDecimal t) = some t := by
  by_cases ht : t < 0
  · unfold intToDecimal
    rw [if_pos ht]
    obtain ⟨hmem, hne, hparse⟩ := natToDecimal_props t.natAbs
    have hdata : ("-" ++ natToDecimal t.natAbs).data
        = '-' :: (natToDecimal t.natAbs).data := rfl
    unfold jsParseInt
    rw [hdata]
    have hws : isJsWs '-' = false := rfl
    simp only [List.dropWhile_cons, hws, Bool.false_eq_true, if_false, if_true, hparse]
    show some (-(t.natAbs : Int)) = some t
    congr 1
    omega
  · have := jsParseInt_natToDecimal t.toNat
    unfold intToDecimal
    rw [if_neg ht, this, Int.toNat_of_nonneg (by omega)]

theorem intToDecimal_chars (t : Int) (c : Char) (hc : c ∈ (intToDecimal t).data) :
    c = '-' ∨ (decDigitVal c).isSome := by
  unfold intToDecimal at hc
  by_cases ht : t < 0
  · rw [if_pos ht] at hc
    have hdata : ("-" ++ natToDecimal t.natAbs).data
        = '-' :: (natToDecimal t.natAbs).data := rfl
    rw [hdata] at hc
    rcases List.mem_cons.mp hc with h | h
    · exact Or.inl h
    · exact Or.inr ((natToDecimal_props t.natAbs).1 c h)
  · rw [if_neg ht] at hc
    exact Or.inr ((natToDecimal_props t.toNat).1 c hc)

theorem dot_not_mem_intToDecimal (t : Int) : '.' ∉ (intToDecimal t).data := by
  intro h
  rcases intToDecimal_chars t '.' h with h | h
  · exact absurd h (by decide)
  · exact absurd h (by decide)

theorem createSession_data (hmac : String → String → String) (secret : String) (t : Int) :
    (createSession hmac secret t).data
      = (intToDecimal t).data ++ '.' :: (hmac secret ("session:" ++ intToDecimal t)).data := by
  unfold createSession
  rw [data_append, data_append]
  simp

theorem timingSafeEqual_self (a : List Nat) : timingSafeEqual a a = some true := by
  simp [timingSafeEqual]

/-- Evaluation of isValidSession on a token built by createSession: the
signature always matches, so validity is exactly the expiry test. -/
theorem isValidSession_createSession (hmac : String → String → String) (secret : String)
    (expiry t now : Int) :
    isValidSession hmac secret expiry now (some (createSession hmac secret t))
      = decide (now - t ≤ expiry) := by
  have hS := createSession_data hmac secret t
  have htokne : createSession hmac secret t ≠ "" := by
    intro h
    have hd := congrArg String.data h
    rw [hS] at hd
    simp at hd
  have hidx : charIndex '.' (createSession hmac secret t).data
      = some (intToDecimal t).data.length := by
    rw [hS]
    exact charIndex_append_cons _ '.' _ (dot_not_mem_intToDecimal t)
  have htake : (createSession hmac secret t).data.take (intToDecimal t).data.length
      = (intToDecimal t).data := by
    rw [hS]
    exact take_append_cons _ '.' _
  have hdrop : (createSession hmac secret t).data.drop ((intToDecimal t).data.length + 1)
      = (hmac secret ("session:" ++ intToDecimal t)).data := by
    rw [hS]
    exact drop_append_cons _ '.' _
  have hmk : String.mk (intToDecimal t).data = intToDecimal t := rfl
  unfold isValidSession
  simp only [htokne, if_neg, hidx, htake, hdrop, hmk, jsParseInt_intToDecimal]
  by_cases hle : now - t ≤ expiry
  · rw [if_neg (by omega : ¬ now - t > expiry)]
    have hsig : String.mk (hmac secret ("session:" ++ intToDecimal t)).data
        = hmac secret ("session:" ++ intToDecimal t) := rfl
    rw [hsig, timingSafeEqual_self]
    simp [hle]
  · rw [if_pos (by omega : now - t > expiry)]
    simp [hle]

/-! ## Claim C1 -/

/-- Claim C1 as stated is FALSE: a POST /api/logout request with no session
cookie at all is passed straight through by requireAuth (the path sits in
PUBLIC_PATHS), and the logout handler answers it 200. -/
theorem claim1_counterexample :
    requireAuth hmacTest ("secret") 86400000 1000 decId ("/api/logout") none
      = AuthDecision.next ∧ logoutHandler.status = 200 :=
  ⟨rfl, rfl⟩

/-- Claim C1 (amended): /api/logout is in the PUBLIC_PATHS allow-list, so the
auth gate passes EVERY request to it through to the logout handler, whatever
the session-cookie state; the handler then clears both cookies and returns
200 for any caller. -/
theorem claim1_amended (hmac : String → String → String) (secret : String)
    (expiry now : Int) (dec : String → String) (cookieHeader : Option String) :
    requireAuth hmac secret expiry now dec ("/api/logout") cookieHeader = AuthDecision.next ∧
    logoutHandler.status = 200 ∧
    logoutHandler.clearsSessionCookie = true ∧
    logoutHandler.clearsUserNameCookie = true :=
  ⟨rfl, rfl, rfl, rfl⟩

/-! ## Claim C2 -/

/-- Claim C2: a session token created at time t validates at every now with
t ≤ now and now - t ≤ sessionExpiryMs; the boundary now = t + sessionExpiryMs
is still valid (inclusive), and now = t + sessionExpiryMs + 1 is invalid. -/
theorem claim2_session_roundtrip (hmac : String → String → String) (secret : String)
    (expiry t now : Int) :
    (t ≤ now → now - t ≤ expiry →
      isValidSession hmac secret expiry now (some (createSession hmac secret t)) = true) ∧
    isValidSession hmac secret expiry (t + expiry) (some (createSession hmac secret t)) = true ∧
    isValidSession hmac secret expiry (t + expiry + 1) (some (createSession hmac secret t))
      = false := by
  refine ⟨fun h1 h2 => ?_, ?_, ?_⟩ <;> rw [isValidSession_createSession] <;> simp <;> omega

/-- Witness for claim C2 at concrete values t = 5, now = 7, expiry = 10. -/
theorem claim2_witness :
    isValidSession hmacTest ("s") 10 7 (some (createSession hmacTest ("s") 5)) = true :=
  (claim2_session_roundtrip hmacTest ("s") 10 5 7).1 (by decide) (by decide)

/-! ## Claim C9 -/

/-- Claim C9 as stated is FALSE in its signature clause: a token whose
signature part is the correct digest followed by zz has a MALFORMED-HEX
signature that also DIFFERS, as a string, from the recomputed HMAC digest,
yet isValidSession accepts it — Node's lenient hex decoding truncates at the
first invalid character, so both buffers decode to the digest bytes and
timingSafeEqual reports equality. -/
theorem claim9_counterexample :
    isValidSession hmacC3 ("secret") 900000 1000
      (some ("1000." ++ hexC3 ++ "zz")) = true ∧
    (hexC3 ++ "zz") ≠ hmacC3 ("secret") ("session:" ++ intToDecimal 1000) ∧
    'z' ∈ (hexC3 ++ "zz").data ∧ (hexVal 'z').isSome = false := by
  refine ⟨by decide, by decide, by decide, by decide⟩

/-- Claim C9 (amended): isValidSession fails closed and never throws — it
returns false on a missing or empty token, a token without the dot
delimiter, a non-numeric timestamp prefix, an expired timestamp, and a
signature whose lenient hex DECODING differs from the recomputed HMAC digest
bytes (signature mismatch via timingSafeEqual over the decoded buffers; its
length-mismatch exception is the caught branch).  String-level malformation
or difference is not sufficient for rejection: a signature equal to the
digest up to case or trailing non-hex garbage still validates (see the
counterexample; same lenient decoding as in C3).  The embedding is a total
function, so no input throws. -/
theorem claim9_fails_closed (hmac : String → String → String) (secret : String)
    (expiry now : Int) :
    isValidSession hmac secret expiry now none = false ∧
    isValidSession hmac secret expiry now (some ("")) = false ∧
    (∀ tok : String, charIndex '.' tok.data = none →
      isValidSession hmac secret expiry now (some tok) = false) ∧
    (∀ (tok : String) (dot : Nat), charIndex '.' tok.data = some dot →
      jsParseInt (String.mk (tok.data.take dot)) = none →
      isValidSession hmac secret expiry now (some tok) = false) ∧
    (∀ (tok : String) (dot : Nat) (ts : Int), charIndex '.' tok.data = some dot →
      jsParseInt (String.mk (tok.data.take dot)) = some ts → now - ts > expiry →
      isValidSession hmac secret expiry now (some tok) = false) ∧
    (∀ (tok : String) (dot : Nat) (ts : Int), charIndex '.' tok.data = some dot →
      jsParseInt (String.mk (tok.data.take dot)) = some ts →
      hexDecode (String.mk (tok.data.drop (dot + 1)))
        ≠ hexDecode (hmac secret ("session:" ++ intToDecimal ts)) →
      isValidSession hmac secret expiry now (some tok) = false) := by
  refine ⟨rfl, rfl, ?_, ?_, ?_, ?_⟩
  · intro tok hdot
    by_cases he : tok = ""
    · simp [isValidSession, he]
    · simp [isValidSession, he, hdot]
  · intro tok dot hdot hparse
    by_cases he : tok = ""
    · simp [isValidSession, he]
    · simp [isValidSession, he, hdot, hparse]
  · intro tok dot ts hdot hparse hexp
    by_cases he : tok = ""
    · simp [isValidSession, he]
    · simp [isValidSession, he, hdot, hparse, hexp]
  · intro tok dot ts hdot hparse hne
    by_cases he : tok = ""
    · simp [isValidSession, he]
    · by_cases hexp : now - ts > expiry
      · simp [isValidSession, he, hdot, hparse, hexp]
      · simp [isValidSession, he, hdot, hparse, hexp, timingSafeEqual]
        by_cases hlen : (hexDecode (String.mk (tok.data.drop (dot + 1)))).length
            = (hexDecode (hmac secret ("session:" ++ intToDecimal ts))).length
        · rw [if_pos hlen]
          simp [hne]
        · rw [if_neg hlen]

/-- Witness for claim C9: concrete malformed inputs — a token with no dot, a
non-numeric timestamp prefix, an expired token, and a wrong signature. -/
theorem claim9_witness :
    isValidSession hmacTest ("s") 10 0 (some ("nodot")) = false ∧
    isValidSession hmacTest ("s") 10 0 (some ("x.ab")) = false ∧
    isValidSession hmacTest ("s") 10 100 (some ("0.ab")) = false ∧
    isValidSession hmacTest ("s") 10 0 (some ("0.zz")) = false :=
  ⟨(claim9_fails_closed hmacTest ("s") 10 0).2.2.1 ("nodot") (by decide),
   (claim9_fails_closed hmacTest ("s") 10 0).2.2.2.1 ("x.ab") 1 (by decide) (by decide),
   (claim9_fails_closed hmacTest ("s") 10 100).2.2.2.2.1 ("0.ab") 1 0 (by decide) (by decide)
     (by decide),
   (claim9_fails_closed hmacTest ("s") 10 0).2.2.2.2.2 ("0.zz") 1 0 (by decide) (by decide)
     (by decide)⟩

/-! ## Claim C10 -/

/-- Claim C10: isValidSession imposes no lower bound on token age — a
correctly signed session token whose timestamp lies arbitrarily far in the
future still validates (the only time check is now - t > sessionExpiryMs),
given the configured expiry is nonnegative (the default is 86400000). -/
theorem claim10_future_tokens (hmac : String → String → String) (secret : String)
    (expiry t now : Int) (hfut : now < t) (hexp : 0 ≤ expiry) :
    isValidSession hmac secret expiry now (some (createSession hmac secret t)) = true := by
  rw [isValidSession_createSession]
  simp
  omega

/-- Witness for claim C10: a token dated 1000000 validates at now = 5. -/
theorem claim10_witness :
    isValidSession hmacTest ("s") 86400000 5 (some (createSession hmacTest ("s") 1000000))
      = true :=
  claim10_future_tokens hmacTest ("s") 86400000 1000000 5 (by decide) (by decide)

/-! ## Claim C3 -/

/-- Claim C3 as stated is FALSE in its only-if direction: verifyToken
compares the HEX-DECODED buffers, and Node hex decoding is case-insensitive
and stops at the first invalid character, so a token that is NOT the hex
digest string can still verify.  Concretely, with an HMAC whose digest is
hexC3, the uppercase variant tokenC3 differs from the digest string yet
verifies successfully. -/
theorem claim3_counterexample :
    verifyToken hmacC3 ("secret") 900000 1000 (some tokenC3) (some 1000) = true ∧
    tokenC3 ≠ hmacC3 ("secret") (intToDecimal 1000) := by
  constructor
  · decide
  · decide

/-- Claim C3 (amended): verifyToken(token, timestamp) at time now returns
true if and only if token and timestamp are present and truthy (token
non-empty, timestamp non-zero), 0 ≤ now - timestamp ≤ tokenExpiryMs, and the
hex DECODING of the token (lenient: case-insensitive, truncated at the first
invalid character) equals the hex decoding of the recomputed HMAC digest —
string equality with the digest is sufficient but not necessary.  Missing
token or timestamp yields false, a future timestamp is rejected, and no
input throws (the embedding is total; the timingSafeEqual length exception
is the caught branch). -/
theorem claim3_amended (hmac : String → String → String) (secret : String)
    (expiry now : Int) :
    (∀ (tok : String) (ts : Int),
      verifyToken hmac secret expiry now (some tok) (some ts) = true ↔
        (tok ≠ "" ∧ ts ≠ 0 ∧ 0 ≤ now - ts ∧ now - ts ≤ expiry ∧
         hexDecode tok = hexDecode (hmac secret (intToDecimal ts)))) ∧
    (∀ ts : Option Int, verifyToken hmac secret expiry now none ts = false) ∧
    (∀ tok : Option String, verifyToken hmac secret expiry now tok none = false) := by
  refine ⟨?_, fun ts => rfl, fun tok => by cases tok <;> rfl⟩
  intro tok ts
  by_cases he : tok = ""
  · simp [verifyToken, he]
  · by_cases hz : ts = 0
    · simp [verifyToken, he, hz]
    · by_cases hage1 : now - ts > expiry
      · simp [verifyToken, he, hz, hage1]
        intros
        omega
      · by_cases hage2 : now - ts < 0
        · simp [verifyToken, he, hz, hage1, hage2]
          intros
          omega
        · simp [verifyToken, he, hz, hage1, hage2, timingSafeEqual]
          by_cases hlen : (hexDecode tok).length
              = (hexDecode (hmac secret (intToDecimal ts))).length
          · rw [if_pos hlen]
            simp
            constructor
            · intro hh
              exact ⟨by omega, by omega, hh⟩
            · intro hh
              exact hh.2.2
          · rw [if_neg hlen]
            simp
            rintro - - hh
            exact hlen (congrArg List.length hh)

/-- Witness for claim C3 (amended): the iff instantiated at a fresh token at
now = ts = 1000 with expiry 900000. -/
theorem claim3_witness :
    verifyToken hmacC3 ("secret") 900000 1000 (some hexC3) (some 1000) = true :=
  ((claim3_amended hmacC3 ("secret") 900000 1000).1 hexC3 1000).mpr
    ⟨by decide, by decide, by decide, by decide, rfl⟩

/-! ## Claim C8 -/

/-- Claim C8: safeCompare(a, b) is true exactly when the UTF-8 byte sequences
of a and b are equal; the listed concrete cases hold, and the
differing-length case returns false without throwing (the length guard keeps
timingSafeEqual from its exceptional branch). -/
theorem claim8_safe_compare :
    (∀ a b : String, safeCompare a b = true ↔ utf8Bytes a = utf8Bytes b) ∧
    safeCompare ("") ("") = true ∧
    safeCompare ("abc") ("abd") = false ∧
    safeCompare ("short") ("muchlonger") = false := by
  refine ⟨?_, by decide, by decide, by decide⟩
  intro a b
  simp only [safeCompare, timingSafeEqual]
  by_cases hlen : (utf8Bytes a).length = (utf8Bytes b).length
  · simp [hlen]
  · simp [hlen]
    intro hh
    exact hlen (congrArg List.length hh)

/-! ## Claim C6 -/

/-- Bridge: last-match lookup over a filterMap equals a first-match search
over the reversed input. -/
theorem getLast_filter_eq_reverse_findSome {α β : Type} (g : α → Option (String × β))
    (name : String) (l : List α) :
    (((l.filterMap g).filter (fun p => p.1 == name)).getLast?).map (fun p => p.2)
      = l.reverse.findSome?
          (fun a => (g a).bind (fun kv => if kv.1 = name then some kv.2 else none)) := by
  induction l using List.reverseRecOn with
  | nil => rfl
  | append_singleton xs x ih =>
    rw [List.filterMap_append, List.filter_append, List.reverse_append]
    simp only [List.reverse_singleton, List.singleton_append, List.findSome?_cons]
    cases hg : g x with
    | none =>
      have h1 : List.filterMap g [x] = [] := by simp [hg]
      rw [h1]
      simp only [List.filter_nil, List.append_nil, hg, Option.none_bind]
      exact ih
    | some kv =>
      have h1 : List.filterMap g [x] = [kv] := by simp [hg]
      rw [h1]
      by_cases hk : kv.1 = name
      · have h2 : List.filter (fun p => p.1 == name) [kv] = [kv] := by simp [hk]
        rw [h2, List.getLast?_concat]
        simp [hg, hk]
      · have h2 : List.filter (fun p => p.1 == name) [kv] = [] := by simp [hk]
        rw [h2, List.append_nil]
        simp only [hg, Option.some_bind, hk, if_false]
        exact ih

/-- Claim C6 as stated is FALSE for the CSRF guard's extraction: on the
header _csrf=a; _csrf=b the session parser returns the LAST occurrence (b)
as the contract demands, while getCookieValue returns the FIRST (a); and on
_csrf=a=b the contract value is the full remainder a=b, while getCookieValue
truncates at the second equals sign and returns a. -/
theorem claim6_counterexample :
    getCookieValue decId (some ("_csrf=a; _csrf=b")) ("_csrf") = some ("a") ∧
    cookiesGet (parseCookies decId (some ("_csrf=a; _csrf=b"))) ("_csrf") = some ("b") ∧
    getCookieValue decId (some ("_csrf=a; _csrf=b")) ("_csrf")
      ≠ specCookieValue decId (some ("_csrf=a; _csrf=b")) ("_csrf") ∧
    getCookieValue decId (some ("_csrf=a=b")) ("_csrf") = some ("a") ∧
    cookiesGet (parseCookies decId (some ("_csrf=a=b"))) ("_csrf") = some ("a=b") := by
  refine ⟨by decide, by decide, by decide, by decide, by decide⟩

/-- Claim C6 (amended): the stated contract — split on semicolons, split each
pair at the FIRST equals sign with the value the whole URL-decoded trimmed
remainder, ignore pairs without an equals sign, last duplicate wins — is
exactly what the session middleware's parseCookies implements, for every
header.  The CSRF guard's getCookieValue does NOT follow it: it returns the
first matching pair and truncates the value at the second equals sign. -/
theorem claim6_amended (dec : String → String) (header : Option String) (name : String) :
    cookiesGet (parseCookies dec header) name = specCookieValue dec header name := by
  cases header with
  | none => rfl
  | some h =>
    by_cases hh : h = ""
    · subst hh
      rfl
    · show cookiesGet (if h = "" then []
          else (splitOnChar ';' h.data).filterMap (parsePair dec)) name = _
      rw [if_neg hh]
      unfold cookiesGet specCookieValue
      rw [getLast_filter_eq_reverse_findSome (parsePair dec) name]
      congr 1
      funext pair
      unfold parsePair
      cases charIndex '=' pair with
      | none => rfl
      | some i => rfl

/-! ## Claim C4 -/

/-- Evaluation of the CSRF middleware when the method is unsafe and the path
is not exempt: the header check runs. -/
theorem csrfProtection_checked (dec : String → String) (fresh : String)
    (ignorePaths : List String) (req : CsrfRequest)
    (hguard : (SAFE_METHODS.contains req.method || ignorePaths.contains req.path) = false) :
    csrfProtection dec fresh ignorePaths req =
      match req.csrfHeader with
      | none =>
        { decision := CsrfDecision.reject 403 ("Invalid or missing CSRF token."),
          setCookie := csrfSetCookie dec fresh req.cookieHeader }
      | some hv =>
        if hv = "" then
          { decision := CsrfDecision.reject 403 ("Invalid or missing CSRF token."),
            setCookie := csrfSetCookie dec fresh req.cookieHeader }
        else if hv = effectiveCsrfValue dec fresh req.cookieHeader then
          { decision := CsrfDecision.next,
            setCookie := csrfSetCookie dec fresh req.cookieHeader }
        else
          { decision := CsrfDecision.reject 403 ("Invalid or missing CSRF token."),
            setCookie := csrfSetCookie dec fresh req.cookieHeader } := by
  unfold csrfProtection
  rw [hguard]
  rfl

/-- Evaluation of the CSRF middleware when the method is safe or the path is
exempt: the request passes with no header check. -/
theorem csrfProtection_safe (dec : String → String) (fresh : String)
    (ignorePaths : List String) (req : CsrfRequest)
    (hguard : (SAFE_METHODS.contains req.method || ignorePaths.contains req.path) = true) :
    csrfProtection dec fresh ignorePaths req =
      { decision := CsrfDecision.next, setCookie := csrfSetCookie dec fresh req.cookieHeader } := by
  unfold csrfProtection
  rw [hguard]
  rfl

/-- Claim C4: for an unsafe-method request on a non-exempt path, the CSRF
middleware calls the downstream handler exactly when the x-csrf-token header
is present (truthy) and equals the request's effective CSRF value (the
incoming _csrf cookie, or the value minted for this request when none came
in); otherwise it answers 403 with the JSON error body.  Safe methods and
exempt paths always pass. -/
theorem claim4_csrf_acceptance (dec : String → String) (fresh : String)
    (ignorePaths : List String) (req : CsrfRequest) :
    (SAFE_METHODS.contains req.method = false → ignorePaths.contains req.path = false →
      (((csrfProtection dec fresh ignorePaths req).decision = CsrfDecision.next) ↔
        (∃ hv, req.csrfHeader = some hv ∧ hv ≠ "" ∧
          hv = effectiveCsrfValue dec fresh req.cookieHeader)) ∧
      ((csrfProtection dec fresh ignorePaths req).decision = CsrfDecision.next ∨
       (csrfProtection dec fresh ignorePaths req).decision
         = CsrfDecision.reject 403 ("Invalid or missing CSRF token."))) ∧
    ((SAFE_METHODS.contains req.method = true ∨ ignorePaths.contains req.path = true) →
      (csrfProtection dec fresh ignorePaths req).decision = CsrfDecision.next) := by
  constructor
  · intro hm hp
    have hguard : (SAFE_METHODS.contains req.method || ignorePaths.contains req.path)
        = false := by
      rw [hm, hp]
      rfl
    have hred := csrfProtection_checked dec fresh ignorePaths req hguard
    rw [hred]
    constructor
    · cases hh : req.csrfHeader with
      | none => simp
      | some hv =>
        dsimp only
        by_cases he : hv = ""
        · subst he
          simp
        · by_cases heq : hv = effectiveCsrfValue dec fresh req.cookieHeader
          · rw [if_neg he, if_pos heq]
            exact ⟨fun _ => ⟨hv, rfl, he, heq⟩, fun _ => rfl⟩
          · rw [if_neg he, if_neg heq]
            constructor
            · intro hcon
              exact absurd hcon (by simp)
            · rintro ⟨hv2, hsome, hne2, heq2⟩
              injection hsome with hv2eq
              exact absurd (hv2eq ▸ heq2) heq
    · cases hh : req.csrfHeader with
      | none => exact Or.inr rfl
      | some hv =>
        dsimp only
        by_cases he : hv = ""
        · rw [if_pos he]
          exact Or.inr rfl
        · by_cases heq : hv = effectiveCsrfValue dec fresh req.cookieHeader
          · rw [if_neg he, if_pos heq]
            exact Or.inl rfl
          · rw [if_neg he, if_neg heq]
            exact Or.inr rfl
  · intro hsafe
    have hguard : (SAFE_METHODS.contains req.method || ignorePaths.contains req.path)
        = true := by
      rcases hsafe with h | h <;> rw [h] <;> simp
    rw [csrfProtection_safe dec fresh ignorePaths req hguard]

/-- Witness for claim C4: a POST to a non-exempt path whose header matches
the effective CSRF value passes. -/
theorem claim4_witness :
    (csrfProtection decId ("tok") []
        { method := "POST", path := "/x", cookieHeader := none,
          csrfHeader := some ("tok") }).decision = CsrfDecision.next :=
  (((claim4_csrf_acceptance decId ("tok") []
      { method := "POST", path := "/x", cookieHeader := none,
        csrfHeader := some ("tok") }).1 (by decide) (by decide)).1).mpr
    ⟨"tok", rfl, by decide, by decide⟩

/-! ## Claim C5 -/

/-- Length of the hex rendering: two characters per byte. -/
theorem bytesToHex_length (bs : List Nat) : (bytesToHex bs).length = 2 * bs.length := by
  show ((bs.map byteToHexChars).flatten).length = 2 * bs.length
  induction bs with
  | nil => rfl
  | cons b t ih =>
    simp only [List.map_cons, List.flatten_cons, List.length_append, ih, List.length_cons]
    simp [byteToHexChars]
    ring

/-- Every character hexDigitChar produces is a hex digit. -/
theorem hexVal_hexDigitChar (d : Nat) : (hexVal (hexDigitChar d)).isSome := by
  unfold hexDigitChar
  split <;> decide

/-- Every character of a hex rendering is a hex digit. -/
theorem bytesToHex_chars (bs : List Nat) (c : Char) (hc : c ∈ (bytesToHex bs).data) :
    (hexVal c).isSome := by
  have hd : (bytesToHex bs).data = (bs.map byteToHexChars).flatten := rfl
  rw [hd] at hc
  rcases List.mem_flatten.mp hc with ⟨l, hl, hcl⟩
  rcases List.mem_map.mp hl with ⟨b, _, rfl⟩
  simp only [byteToHexChars, List.mem_cons, List.mem_singleton] at hcl
  rcases hcl with rfl | rfl | hfalse
  · exact hexVal_hexDigitChar _
  · exact hexVal_hexDigitChar _
  · simp at hfalse

/-- Claim C5: a cookieless GET is passed through and the response carries a
newly minted _csrf cookie, the 48 lowercase-hex rendering of the 24 random
bytes drawn for it; the same cookieless client's first POST with no
x-csrf-token header is rejected 403 (on a non-exempt path) even though the
same fresh cookie is attached to that rejection. -/
theorem claim5_first_visit (dec : String → String) (bytes : List Nat)
    (ignorePaths : List String) (path : String) (hdr : Option String)
    (h24 : bytes.length = 24) :
    (csrfProtection dec (bytesToHex bytes) ignorePaths
        { method := "GET", path := path, cookieHeader := none, csrfHeader := hdr }).decision
      = CsrfDecision.next ∧
    (csrfProtection dec (bytesToHex bytes) ignorePaths
        { method := "GET", path := path, cookieHeader := none, csrfHeader := hdr }).setCookie
      = some (bytesToHex bytes) ∧
    (bytesToHex bytes).length = 48 ∧
    (∀ c ∈ (bytesToHex bytes).data, (hexVal c).isSome) ∧
    (ignorePaths.contains path = false →
      (csrfProtection dec (bytesToHex bytes) ignorePaths
          { method := "POST", path := path, cookieHeader := none,
            csrfHeader := none }).decision
        = CsrfDecision.reject 403 ("Invalid or missing CSRF token.") ∧
      (csrfProtection dec (bytesToHex bytes) ignorePaths
          { method := "POST", path := path, cookieHeader := none,
            csrfHeader := none }).setCookie
        = some (bytesToHex bytes)) := by
  have hsafe : (SAFE_METHODS.contains ("GET") || ignorePaths.contains path) = true := rfl
  refine ⟨?_, ?_, ?_, fun c hc => bytesToHex_chars bytes c hc, fun hp => ?_⟩
  · rw [csrfProtection_safe dec (bytesToHex bytes) ignorePaths _ hsafe]
  · rw [csrfProtection_safe dec (bytesToHex bytes) ignorePaths _ hsafe]
    rfl
  · rw [bytesToHex_length, h24]
  · have hguard : (SAFE_METHODS.contains ("POST") || ignorePaths.contains path)
        = false := by
      rw [hp]
      decide
    rw [csrfProtection_checked dec (bytesToHex bytes) ignorePaths _ hguard]
    exact ⟨rfl, rfl⟩

/-- Witness for claim C5: 24 zero bytes; first POST on /p with no header is
rejected 403. -/
theorem claim5_witness :
    (csrfProtection decId (bytesToHex (List.replicate 24 0)) []
        { method := "POST", path := "/p", cookieHeader := none,
          csrfHeader := none }).decision
      = CsrfDecision.reject 403 ("Invalid or missing CSRF token.") :=
  ((claim5_first_visit decId (List.replicate 24 0) [] ("/p") none (by decide)).2.2.2.2
    (by decide)).1

/-! ## Claim C7 -/

/-- Claim C7 as stated is FALSE: with no external secret and a present but
EMPTY persisted file, the code returns the empty string as the signing
secret (readFileSync succeeds, trim of an empty string is empty, and no
non-emptiness check exists), while the claimed resolution demands a freshly
generated random 32-byte value. -/
theorem claim7_counterexample :
    signingSecret
      { envSecret := none, fileContent := some (""),
        randomBytes32 := List.replicate 32 7, writeOk := false } = "" ∧
    specResolveSecret
      { envSecret := none, fileContent := some (""),
        randomBytes32 := List.replicate 32 7, writeOk := false }
      = bytesToHex (List.replicate 32 7) ∧
    ("" : String) ≠ bytesToHex (List.replicate 32 7) := by
  refine ⟨rfl, rfl, by decide⟩

/-- Claim C7 (amended): the resolved secret is the externally configured one
when present and non-empty; otherwise the persisted file's content trimmed of
surrounding whitespace whenever the file is readable — even when that content
is empty (no non-emptiness check); otherwise the lowercase-hex rendering of
32 freshly drawn random bytes, returned regardless of whether persisting them
succeeded (writeOk never influences the result). -/
theorem claim7_amended (s : SecretSources) :
    (∀ e, s.envSecret = some e → e ≠ "" → signingSecret s = e) ∧
    (∀ content, s.fileContent = some content →
      (s.envSecret = none ∨ s.envSecret = some ("")) →
      signingSecret s = String.mk (trimChars content.data)) ∧
    ((s.envSecret = none ∨ s.envSecret = some ("")) → s.fileContent = none →
      signingSecret s = bytesToHex s.randomBytes32) ∧
    (∀ b, signingSecret { s with writeOk := b } = signingSecret s) := by
  refine ⟨?_, ?_, ?_, fun b => rfl⟩
  · intro e he hne
    simp [signingSecret, he, hne]
  · intro content hc henv
    rcases henv with h | h <;>
      simp [signingSecret, getOrCreateSigningSecret, h, hc]
  · intro henv hf
    rcases henv with h | h <;>
      simp [signingSecret, getOrCreateSigningSecret, h, hf]

/-- Witness for claim C7 (amended): with no env secret and file content
consisting of x surrounded by spaces, the resolved secret is the trimmed x. -/
theorem claim7_witness :
    signingSecret
      { envSecret := none, fileContent := some (" x "),
        randomBytes32 := [], writeOk := false } = "x" := by
  have h := (claim7_amended
    { envSecret := none, fileContent := some (" x "),
      randomBytes32 := [], writeOk := false }).2.1 (" x ") rfl (Or.inl rfl)
  rw [h]
  decide

end Humanizer

